import Mathlib

/-!
Shallow embedding of the graph-flattening core of `src/load_janes_data.py`
(repository Weston-Tyler/SEER) together with theorems settling the frozen
claims about it.

Modelling conventions:
* Python strings are Lean `String`s; per-character case mapping models
  Python's `str.upper`/`str.lower` on the ASCII range (all identifiers,
  predicate names and ids handled by this program are ASCII).
* JSON values (the shapes produced by `json.load`) are the inductive
  `JValue`; Python dicts are insertion-ordered association lists.
* Python numbers are carried by their decimal rendering (the string that
  `str()` produces for them), since only that rendering is observable in
  the program (geometry formatting, property pass-through).
* Exceptions are an `Except PyErr` result; the unbounded recursion of
  `traverse` is modelled with a fuel parameter whose exhaustion plays the
  role of Python's `RecursionError`.
-/

set_option maxRecDepth 100000

namespace SEER

/-- Python's per-character `str.upper()` restricted to ASCII: maps a
lowercase ASCII letter to its uppercase form and leaves every other
character unchanged (line 68 of the source applies it one character at a
time). -/
def pyUpperChar (c : Char) : Char :=
  if 97 ≤ c.toNat ∧ c.toNat ≤ 122 then Char.ofNat (c.toNat - 32) else c

/-- Python's per-character `str.lower()` restricted to ASCII. -/
def pyLowerChar (c : Char) : Char :=
  if 65 ≤ c.toNat ∧ c.toNat ≤ 90 then Char.ofNat (c.toNat + 32) else c

/-- Python `str.lower()` on a whole (ASCII) string. -/
def pyLowerStr (s : String) : String :=
  ⟨s.data.map pyLowerChar⟩

/-- Python `str.split(sep)` on character lists: splitting the empty string
gives one empty group, and every separator occurrence starts a new group
(so adjacent separators produce empty groups, as in Python). -/
def splitChars (sep : Char) : List Char → List (List Char)
  | [] => [[]]
  | c :: cs =>
    match splitChars sep cs with
    | [] => [[]]
    | g :: gs => if c = sep then [] :: g :: gs else (c :: g) :: gs

/-- Longest slash-free suffix of a character list: the `tail` that
`posixpath.split` returns (`p[i:]` with `i = p.rfind(sep) + 1`). -/
def afterLastSlash (cs : List Char) : List Char :=
  (cs.reverse.takeWhile (· != '/')).reverse

/-- Everything up to and including the last slash (`p[:i]` with
`i = p.rfind(sep) + 1`); empty when there is no slash. -/
def upToLastSlash (cs : List Char) : List Char :=
  (cs.reverse.dropWhile (· != '/')).reverse

/-- Python `str.rstrip('/')`: drop all trailing slashes. -/
def rstripSlashes (cs : List Char) : List Char :=
  (cs.reverse.dropWhile (· == '/')).reverse

/-- Model of `os.path.split` on POSIX (`posixpath.split`): split at the
final slash; the head keeps no trailing slashes unless it consists solely
of slashes. -/
def os_path_split (p : String) : String × String :=
  let t := afterLastSlash p.data
  let headRaw := upToLastSlash p.data
  let head :=
    if headRaw ≠ [] ∧ headRaw.any (· != '/') then rstripSlashes headRaw else headRaw
  (⟨head⟩, ⟨t⟩)

/-- All 32-bit words: reduction modulo 2^32. -/
def w32 (n : Nat) : Nat := n % 4294967296

/-- Left rotation of a 32-bit word (argument assumed below 2^32). -/
def rotl32 (k n : Nat) : Nat := w32 (n <<< k) ||| (n >>> (32 - k))

/-- UTF-8 encoding of one character, as byte values (`str.encode()`). -/
def utf8Bytes (c : Char) : List Nat :=
  let n := c.toNat
  if n < 128 then [n]
  else if n < 2048 then [192 ||| (n >>> 6), 128 ||| (n &&& 63)]
  else if n < 65536 then
    [224 ||| (n >>> 12), 128 ||| ((n >>> 6) &&& 63), 128 ||| (n &&& 63)]
  else
    [240 ||| (n >>> 18), 128 ||| ((n >>> 12) &&& 63),
     128 ||| ((n >>> 6) &&& 63), 128 ||| (n &&& 63)]

/-- Bytes of a string under UTF-8 (`str.encode()`). -/
def strBytes (s : String) : List Nat :=
  s.data.foldr (fun c r => utf8Bytes c ++ r) []

/-- Big-endian byte rendering of a number into `k` bytes. -/
def beBytes (k n : Nat) : List Nat :=
  (List.range k).map (fun i => (n >>> (8 * (k - 1 - i))) &&& 255)

/-- SHA-1 message padding: append 0x80, zero-pad to 56 mod 64, then the
bit length as eight big-endian bytes. -/
def sha1Pad (m : List Nat) : List Nat :=
  let L := m.length
  m ++ [128] ++ List.replicate ((119 - L % 64) % 64) 0 ++ beBytes 8 (8 * L)

/-- Group a byte list into big-endian 32-bit words. -/
def words16 : List Nat → List Nat
  | b0 :: b1 :: b2 :: b3 :: rest =>
    (((b0 * 256 + b1) * 256 + b2) * 256 + b3) :: words16 rest
  | _ => []

/-- SHA-1 message-schedule extension: given the window of the previous 16
words, produce the next `n` words. -/
def extendWords : Nat → List Nat → List Nat
  | 0, _ => []
  | n + 1, w =>
    let x := rotl32 1 ((w.getD 13 0) ^^^ (w.getD 8 0) ^^^ (w.getD 2 0) ^^^ (w.getD 0 0))
    x :: extendWords n (w.drop 1 ++ [x])

/-- SHA-1 round constant for round `i`. -/
def sha1K (i : Nat) : Nat :=
  if i < 20 then 1518500249
  else if i < 40 then 1859775393
  else if i < 60 then 2400959708
  else 3395469782

/-- SHA-1 nonlinear function for round `i`. -/
def sha1F (i b c d : Nat) : Nat :=
  if i < 20 then (b &&& c) ||| ((b ^^^ 4294967295) &&& d)
  else if i < 40 then b ^^^ c ^^^ d
  else if i < 60 then (b &&& c) ||| (b &&& d) ||| (c &&& d)
  else b ^^^ c ^^^ d

/-- The 80 SHA-1 rounds over the extended schedule. -/
def sha1Rounds : Nat → List Nat → Nat × Nat × Nat × Nat × Nat → Nat × Nat × Nat × Nat × Nat
  | _, [], st => st
  | i, wd :: ws, (a, b, c, d, e) =>
    let t := w32 (rotl32 5 a + sha1F i b c d + e + sha1K i + wd)
    sha1Rounds (i + 1) ws (t, a, rotl32 30 b, c, d)

/-- Compression of one 64-byte block into the running state. -/
def sha1Block (h : Nat × Nat × Nat × Nat × Nat) (block : List Nat) : Nat × Nat × Nat × Nat × Nat :=
  let w16 := words16 block
  let ws := w16 ++ extendWords 64 w16
  let (h0, h1, h2, h3, h4) := h
  let (a, b, c, d, e) := sha1Rounds 0 ws h
  (w32 (h0 + a), w32 (h1 + b), w32 (h2 + c), w32 (h3 + d), w32 (h4 + e))

/-- Process a padded message 64 bytes at a time (fuel-bounded chunking;
the fuel is instantiated with the message length, which always suffices). -/
def sha1Blocks : Nat → List Nat → Nat × Nat × Nat × Nat × Nat → Nat × Nat × Nat × Nat × Nat
  | 0, _, h => h
  | _ + 1, [], h => h
  | f + 1, bytes, h => sha1Blocks f (bytes.drop 64) (sha1Block h (bytes.take 64))

/-- Lowercase hexadecimal digit. -/
def hexDigit (n : Nat) : Char :=
  Char.ofNat (if n < 10 then 48 + n else 87 + n)

/-- Eight hex characters of one 32-bit word, most significant first. -/
def wordHex (wd : Nat) : List Char :=
  (List.range 8).map (fun i => hexDigit ((wd >>> (28 - 4 * i)) &&& 15))

/-- Hex digest characters of SHA-1 of a string
(`hashlib.sha1(s.encode()).hexdigest()`). -/
def sha1hexChars (s : String) : List Char :=
  let m := sha1Pad (strBytes s)
  let (a, b, c, d, e) :=
    sha1Blocks m.length m (1732584193, 4023233417, 2562383102, 271733878, 3285377520)
  wordHex a ++ wordHex b ++ wordHex c ++ wordHex d ++ wordHex e

/-- Hex digest of SHA-1 of a string, as a string. -/
def sha1hex (s : String) : String := ⟨sha1hexChars s⟩

example : sha1hex "abc" = "a9993e364706816aba3e25717850c26c9cd0d89d" := by decide

example : sha1hex "" = "da39a3ee5e6b4b0d3255bfef95601890afd80709" := by decide

example : sha1hex "https://x/equipment/Equipment/123"
    = "78cb116d6b56596be6711b2fd26c095d29e6fb0f" := by decide

/-- Model of `convert_predicate_name` (source lines 62 to 75): walk the
string with its enumeration index; a character equal to its own uppercase
form is preceded by a hyphen (except at index 0) and lowercased, any other
character passes through. -/
def cpnGo : Nat → List Char → List Char
  | _, [] => []
  | i, c :: cs =>
    (if c = pyUpperChar c then (if 0 < i then ['-'] else []) ++ [pyLowerChar c] else [c])
      ++ cpnGo (i + 1) cs

/-- Source function `convert_predicate_name` (lines 62 to 75). -/
def convert_predicate_name (p : String) : String :=
  ⟨cpnGo 0 p.data⟩

/-- Loop of `unconvert_predicate_name` with its `to_upper` flag. -/
def upnGo : Bool → List Char → List Char
  | _, [] => []
  | to_upper, c :: cs =>
    if c = '-' then upnGo true cs
    else (if to_upper then pyUpperChar c else c) :: upnGo false cs

/-- Source function `unconvert_predicate_name` (lines 79 to 95). -/
def unconvert_predicate_name (p : String) : String :=
  ⟨upnGo false p.data⟩

example : convert_predicate_name "locatedAt" = "located-at" := by decide
example : convert_predicate_name "EquipmentFamily" = "equipment-family" := by decide
example : unconvert_predicate_name "located-at" = "locatedAt" := by decide

/-- Source function `convert_id` (lines 127 to 133): split the IRI at its
last path segment, take the last slash-delimited component of the head as
a short prefix, and append the lowercased local id and the first eight hex
characters of the SHA-1 digest of the whole id. -/
def convert_id (id : String) : String :=
  let (iri, uid) := os_path_split id
  let pfx : String := ⟨(splitChars '/' iri.data).getLastD []⟩
  "janes-" ++ pfx ++ "-" ++ pyLowerStr uid ++ "-" ++ ⟨(sha1hexChars id).take 8⟩

example : convert_id "https://x/equipment/Equipment/123" = "janes-Equipment-123-78cb116d" := by decide
example : convert_id "https://x/organization/Organization/9" = "janes-Organization-9-80f449e0" := by decide
example : convert_id "abc" = "janes--abc-a9993e36" := by decide

/-- Source function `convert_type` (lines 137 to 140). -/
def convert_type (id : String) : String :=
  let (_, uid) := os_path_split id
  pyLowerStr (convert_predicate_name uid)

example : convert_type "https://x/ontologies/equipment/Equipment" = "equipment" := by decide

/-- JSON values as loaded by `json.load`: scalars (strings, numbers,
booleans, null) and nested dicts and lists.  Numbers carry their decimal
rendering, the only aspect the program observes. -/
inductive JValue where
  | str (s : String)
  | num (rendering : String)
  | bool (b : Bool)
  | null
  | obj (fields : List (String × JValue))
  | arr (elems : List JValue)
deriving Repr

/-- First-match lookup in an insertion-ordered dict. -/
def dlookup (l : List (String × JValue)) (k : String) : Option JValue :=
  match l with
  | [] => none
  | (k', v) :: rest => if k' = k then some v else dlookup rest k

/-- Python dict assignment `d[k] = v`: replace the value in place if the
key exists, otherwise append the pair at the end. -/
def dinsert (l : List (String × JValue)) (k : String) (v : JValue) : List (String × JValue) :=
  match l with
  | [] => [(k, v)]
  | (k', v') :: rest => if k' = k then (k', v) :: rest else (k', v') :: dinsert rest k v

/-- Python `d.get(k)`: the stored value, or `None` when the key is absent.
A stored JSON `null` and an absent key are indistinguishable, exactly as
in Python. -/
def dget (l : List (String × JValue)) (k : String) : JValue :=
  (dlookup l k).getD .null

/-- Containment of one character list in another (Python's `in` on two
strings, substring containment). -/
def strIn (needle : List Char) : List Char → Bool
  | [] => needle.isEmpty
  | c :: cs => needle.isPrefixOf (c :: cs) || strIn needle cs

/-- Python equality of a JSON value with a given string (only strings can
compare equal to a string). -/
def pyEqStr (k : String) (v : JValue) : Bool :=
  match v with
  | .str s => s = k
  | _ => false

/-- Python exceptions that the modelled code can raise, plus the fuel
exhaustion of the bounded recursion (Python's `RecursionError`). -/
inductive PyErr where
  | keyError
  | typeError
  | attributeError
  | recursionError
deriving Repr, DecidableEq

/-- Python subscription `v[k]` with a string key: a dict yields the stored
value or raises `KeyError`; every other value raises `TypeError`. -/
def pyGetItem (v : JValue) (k : String) : Except PyErr JValue :=
  match v with
  | .obj fields =>
    match dlookup fields k with
    | some x => .ok x
    | none => .error .keyError
  | _ => .error .typeError

/-- Evaluation of `convert_id(v)` on an arbitrary value: `os.path.split`
raises `TypeError` unless the argument is a string. -/
def convert_id_py (v : JValue) : Except PyErr String :=
  match v with
  | .str s => .ok (convert_id s)
  | _ => .error .typeError

/-- Python `'id' not in subj` for each shape of `subj`: key membership on
a dict, substring test on a string, element membership on a list, and a
`TypeError` on non-iterable scalars. -/
def idNotIn (v : JValue) : Except PyErr Bool :=
  match v with
  | .obj fields => .ok (dlookup fields "id").isNone
  | .str s => .ok (!strIn "id".data s.data)
  | .arr elems => .ok (!elems.any (pyEqStr "id"))
  | _ => .error .typeError

/-- Python `str(v)` as used by the f-string in `extract_location_info`:
strings render as themselves, numbers by their rendering, `True`, `False`
and `None` as in Python; containers are rendered by `pyRepr`. -/
def pyStr (v : JValue) : String :=
  match v with
  | .str s => s
  | .num r => r
  | .bool b => if b then "True" else "False"
  | .null => "None"
  | other => pyReprAux other
where
  /-- Python `repr` for containers.  Dict and list layout follows Python;
  the escaping rules of `repr` on exotic strings are not modelled (no
  claim exercises them). -/
  pyReprAux : JValue → String
    | .str s => "'" ++ s ++ "'"
    | .num r => r
    | .bool b => if b then "True" else "False"
    | .null => "None"
    | .obj fields => "\x7b" ++ reprFields fields ++ "\x7d"
    | .arr elems => "[" ++ reprElems elems ++ "]"
  reprFields : List (String × JValue) → String
    | [] => ""
    | [(k, v)] => "'" ++ k ++ "': " ++ pyReprAux v
    | (k, v) :: rest => "'" ++ k ++ "': " ++ pyReprAux v ++ ", " ++ reprFields rest
  reprElems : List JValue → String
    | [] => ""
    | [v] => pyReprAux v
    | v :: rest => pyReprAux v ++ ", " ++ reprElems rest

/-- Python `v is None`: only the JSON null is the Python `None`. -/
def JValue.isNull : JValue → Bool
  | .null => true
  | _ => false

/-- Result of `extract_location_info` (source lines 98 to 122): the dict
it returns holds the keys `geometry`, `location_country` and
`geoprecision` exactly when the corresponding value is not `None`, which
an `Option` field models exactly. -/
structure LocInfo where
  geometry : Option String
  location_country : Option JValue
  geoprecision : Option JValue
deriving Repr

/-- Source function `extract_location_info` (lines 98 to 122).  When
`locatedAt` is absent the result is empty; when it is present but is not a
dict, the `.get` attribute accesses raise `AttributeError`; otherwise the
geometry string `POINT(lon lat)` is produced when both `lat` and `long`
are present (not `None`), and the `locationCountry` and `geoprecision`
values are passed through unresolved. -/
def extract_location_info (fields : List (String × JValue)) : Except PyErr LocInfo :=
  match dlookup fields "locatedAt" with
  | none => .ok ⟨none, none, none⟩
  | some la =>
    match la with
    | .obj laf =>
      let lat := dget laf "lat"
      let lon := dget laf "long"
      let geom : Option String :=
        if !lat.isNull ∧ !lon.isNull
        then some ("POINT(" ++ pyStr lon ++ " " ++ pyStr lat ++ ")")
        else none
      let lc := dget laf "locationCountry"
      let gp := dget laf "geoprecision"
      .ok ⟨geom,
           if lc.isNull then none else some lc,
           if gp.isNull then none else some gp⟩
    | _ => .error .attributeError

/-- Source table `type_class_map` (lines 28 to 46), verbatim.  The source
dict literal lists the key for geo/Country twice with the same value;
first-match lookup on the association list coincides with the resulting
dict. -/
def type_class_map : List (String × String) :=
  [("https://data.janes.com/ontologies/equipment/Equipment", "Entity"),
   ("https://data.janes.com/ontologies/orbat/MilitaryGroup", "Entity"),
   ("https://data.janes.com/ontologies/geo/Country", "Entity"),
   ("https://data.janes.com/ontologies/equipment/EquipmentFamily", "Property"),
   ("https://data.janes.com/ontologies/organization/Organization", "Entity"),
   ("https://data.janes.com/ontologies/classification/Classification", "Property"),
   ("https://data.janes.com/ontologies/specifications/Condition", "Property"),
   ("https://data.janes.com/ontologies/equipment/EquipmentVariant", "Property"),
   ("https://data.janes.com/ontologies/specifications/Specification", "Property"),
   ("https://data.janes.com/ontologies/installation/Installation", "Entity"),
   ("https://data.janes.com/ontologies/inventory/InServiceInventory", "Entity"),
   ("https://data.janes.com/ontologies/agent/Organization", "Entity"),
   ("https://data.janes.com/ontologies/inventory/AcquisitionInventory", "Entity"),
   ("https://data.janes.com/ontologies/installation/Runway", "Entity"),
   ("https://data.janes.com/ontologies/geo/Country", "Entity"),
   ("https://data.janes.com/ontologies/agent/JointVenture", "Concept"),
   ("https://data.janes.com/ontologies/unit/Unit", "Concept")]

/-- First-match lookup in a string-valued table (same dict lookup as
`dlookup`, for the type table). -/
def tlookup (l : List (String × String)) (k : String) : Option String :=
  match l with
  | [] => none
  | (k', v) :: rest => if k' = k then some v else tlookup rest k

/-- Python `type_class_map.get(t, 'Entity')` (line 216). -/
def type_class_get (t : String) : String :=
  (tlookup type_class_map t).getD "Entity"

/-- The flattened object dict built at lines 220 to 233; field names
follow the keyword arguments of the source (`type` and `alias` are
keywords in Lean, hence the trailing underscores).  The `project` keyword
argument (a uid issued by the external collaborator) is boundary glue and
not part of the model; the final wrapping into
`geodesic.entanglement.Object` at lines 249 to 250 does not change the
data and is modelled as the identity. -/
structure FlatNode where
  alias_ : JValue
  domain : String
  object_class : String
  name : String
  xid : String
  type_ : String
  item : List (String × JValue)
  geometry : Option String
deriving Repr

/-- A connection triple `(subject name, predicate, object name)`. -/
abbrev Conn := String × String × String

/-- The two shared accumulators threaded through the traversal:
`objects` (an insertion-ordered dict from names to flat objects) and
`connections` (an ordered edge list). -/
structure St where
  objects : List (String × FlatNode)
  connections : List Conn
deriving Repr

/-- Dict assignment `objects[name] = node`. -/
def oinsert (l : List (String × FlatNode)) (k : String) (v : FlatNode) : List (String × FlatNode) :=
  match l with
  | [] => [(k, v)]
  | (k', v') :: rest => if k' = k then (k', v) :: rest else (k', v') :: oinsert rest k v

/-- First-match lookup `objects[name]`. -/
def olookup (l : List (String × FlatNode)) (k : String) : Option FlatNode :=
  match l with
  | [] => none
  | (k', v) :: rest => if k' = k then some v else olookup rest k

/-- The try/except of lines 207 to 212: read `subj['type']` and convert
it; on any exception (`KeyError` when absent, `TypeError` inside
`convert_type` when not a string) fall back to the empty type and the
sentinel label. -/
def compute_type_info (fields : List (String × JValue)) : String × String :=
  match dlookup fields "type" with
  | some (.str t) => (t, convert_type t)
  | some _ => ("", "*")
  | none => ("", "*")

/-- The object dict construction of lines 220 to 233 (including the
geometry attachment). -/
def build_node (fields : List (String × JValue)) (name xid janesType object_class : String)
    (props : List (String × JValue)) (li : LocInfo) : FlatNode :=
  { alias_ := (dlookup fields "label").getD (.str name)
    domain := "military"
    object_class := object_class
    name := name
    xid := xid
    type_ := janesType
    item := props
    geometry := li.geometry }

mutual

/-- Source function `traverse` (lines 190 to 250).  The first argument is
recursion fuel (see the module docstring); every recursive call consumes
one unit.  A record without an `id` is returned unchanged; a record with
an `id` is flattened into the accumulators and `None` is returned (the
function body has no return statement on that path). -/
def traverse : Nat → JValue → St → Except PyErr (Option JValue × St)
  | 0, _, _ => .error .recursionError
  | fuel + 1, subj, st => do
    let noId ← idNotIn subj
    if noId then
      .ok (some subj, st)
    else do
      let xidv ← pyGetItem subj "id"
      let name ← convert_id_py xidv
      match subj with
      | .obj fields =>
        let xid := (match xidv with | .str s => s | _ => "")
        let (ty, janesType) := compute_type_info fields
        let li ← extract_location_info fields
        let object_class := type_class_get ty
        let (props, st₁) ← parse_props fuel name fields [] st
        let st₂ := { st₁ with objects := oinsert st₁.objects name (build_node fields name xid janesType object_class props li) }
        let st₃ ← ref_edge_block fuel "location-country" li.location_country fields st₂
        let st₄ ← ref_edge_block fuel "geoprecision" li.geoprecision fields st₃
        .ok (none, st₄)
      | _ => .error .typeError

/-- Source function `parse_props` (lines 143 to 185), written as a
recursion over the remaining key/value pairs with the properties built so
far as an accumulator.  The reserved `id` key is skipped; scalars are
copied; list values are handled element by element by `parse_elems`; a
dict value either becomes an inline property (when `traverse` returns it)
or produces a connection. -/
def parse_props : Nat → String → List (String × JValue) → List (String × JValue) → St → Except PyErr (List (String × JValue) × St)
  | 0, _, _, _, _ => .error .recursionError
  | _ + 1, _, [], props, st => .ok (props, st)
  | fuel + 1, name, (k, v) :: rest, props, st =>
    if k = "id" then parse_props fuel name rest props st
    else
      match v with
      | .arr elems => do
        let (props', st') ← parse_elems fuel name k elems props st
        parse_props fuel name rest props' st'
      | .obj _ => do
        let (prop, st') ← traverse fuel v st
        match prop with
        | some pv => parse_props fuel name rest (dinsert props k pv) st'
        | none => do
          let idv ← pyGetItem v "id"
          let obj_name ← convert_id_py idv
          let predicate := convert_predicate_name k
          parse_props fuel name rest props
            { st' with connections := st'.connections ++ [(name, predicate, obj_name)] }
      | scalar => parse_props fuel name rest (dinsert props k scalar) st

/-- The inner loop of `parse_props` over the elements of a list value
(lines 166 to 175): each element either overwrites the property value (a
later inline element wins) or produces a connection. -/
def parse_elems : Nat → String → String → List JValue → List (String × JValue) → St → Except PyErr (List (String × JValue) × St)
  | 0, _, _, _, _, _ => .error .recursionError
  | _ + 1, _, _, [], props, st => .ok (props, st)
  | fuel + 1, name, k, sub_obj :: rest, props, st => do
    let (prop, st') ← traverse fuel sub_obj st
    match prop with
    | some pv => parse_elems fuel name k rest (dinsert props k pv) st'
    | none => do
      let idv ← pyGetItem sub_obj "id"
      let obj_name ← convert_id_py idv
      let predicate := convert_predicate_name k
      parse_elems fuel name k rest props
        { st' with connections := st'.connections ++ [(name, predicate, obj_name)] }

/-- The two reference-edge blocks of lines 235 to 241 and 242 to 247:
when the location info carries a `location_country` (resp. `geoprecision`)
value, recursively flatten it (discarding its result), recompute the owner
name from `subj['id']`, dereference the sub-record's `id` without any
guard, and append the edge. -/
def ref_edge_block : Nat → String → Option JValue → List (String × JValue) → St → Except PyErr St
  | 0, _, _, _, _ => .error .recursionError
  | fuel + 1, label, sub, fields, st =>
    match sub with
    | none => .ok st
    | some lc => do
      let (_, st') ← traverse fuel lc st
      let xidv ← pyGetItem (.obj fields) "id"
      let name ← convert_id_py xidv
      let idv ← pyGetItem lc "id"
      let obj_name ← convert_id_py idv
      .ok { st' with connections := st'.connections ++ [(name, label, obj_name)] }

end

/-- Line 297: `list(set(p for _, p, _ in connections))`.  A Python set has
no duplicates and an unspecified iteration order; the model fixes the
first-occurrence order, and every property proved about it is
order-insensitive (membership, nodup, the underlying finite set). -/
def unique_predicates (connections : List Conn) : List String :=
  (connections.map (fun c => c.2.1)).dedup

/-- The calls `main` hands to the external persistence collaborator, in
program order. -/
inductive ExtCall where
  | registerPredicates (predicates : List String)
  | saveNode (node : FlatNode)
  | saveEdges (batch : List Conn)
deriving Repr

/-- Lines 280 to 295: traverse every record of every loaded collection in
order, threading the two shared accumulators. -/
def traverse_all (fuel : Nat) (colls : List (List JValue)) (st : St) : Except PyErr St :=
  match colls with
  | [] => .ok st
  | coll :: rest => do
    let st' ← traverse_coll fuel coll st
    traverse_all fuel rest st'
where
  traverse_coll (fuel : Nat) (coll : List JValue) (st : St) : Except PyErr St :=
    match coll with
    | [] => .ok st
    | x :: xs => do
      let (_, st') ← traverse fuel x st
      traverse_coll fuel xs st'

/-- Source function `main` (lines 269 to 323), modelled from the traversal
onward as the list of calls handed to the external collaborators: after
traversing all collections, the distinct predicates are registered
(line 304) and then `exit()` is called (line 305), so the node saving and
the batched connection writing of lines 306 to 323 are unreachable and no
further external call is made. -/
def main_calls (fuel : Nat) (colls : List (List JValue)) : Except PyErr (St × List ExtCall) := do
  let st ← traverse_all fuel colls ⟨[], []⟩
  .ok (st, [ExtCall.registerPredicates (unique_predicates st.connections)])

/-- Lines 313 to 320 (dead code, see `main_calls`): the Connection batch
built from the triples, dropping self-loops (`if sub != obj`). -/
def conn_objects (connections : List Conn) : List Conn :=
  connections.filter (fun c => c.1 ≠ c.2.2)

/-- The worked record of testable property 5 of the spec. -/
def c2Record : JValue :=
  .obj [("id", .str "https://x/equipment/Equipment/123"),
        ("type", .str "https://x/ontologies/equipment/Equipment"),
        ("label", .str "Tank X"),
        ("partOf", .obj [("id", .str "https://x/organization/Organization/9"),
                         ("label", .str "Org")])]

/-! Character-level facts about the ASCII case maps. -/

theorem char_eq_of_toNat_eq {c d : Char} (h : c.toNat = d.toNat) : c = d :=
  Char.ext (UInt32.toNat.inj h)

theorem toNat_ofNat_valid (n : Nat) (h : n.isValidChar) : (Char.ofNat n).toNat = n := by
  simp [Char.ofNat, h, Char.ofNatAux, Char.toNat, UInt32.toNat, BitVec.toNat_ofNatLt]

/-- ASCII uppercase letters. -/
def isAsciiUpper (c : Char) : Prop := 65 ≤ c.toNat ∧ c.toNat ≤ 90

/-- ASCII lowercase letters. -/
def isAsciiLower (c : Char) : Prop := 97 ≤ c.toNat ∧ c.toNat ≤ 122

/-- ASCII letters. -/
def isAsciiLetter (c : Char) : Prop := isAsciiUpper c ∨ isAsciiLower c

instance (c : Char) : Decidable (isAsciiUpper c) := by unfold isAsciiUpper; infer_instance

instance (c : Char) : Decidable (isAsciiLower c) := by unfold isAsciiLower; infer_instance

instance (c : Char) : Decidable (isAsciiLetter c) := by unfold isAsciiLetter; infer_instance

theorem pyUpperChar_of_upper {c : Char} (h : isAsciiUpper c) : pyUpperChar c = c := by
  obtain ⟨h1, h2⟩ := h
  unfold pyUpperChar
  rw [if_neg (by omega)]

theorem toNat_pyUpperChar_of_lower {c : Char} (h : isAsciiLower c) :
    (pyUpperChar c).toNat = c.toNat - 32 := by
  obtain ⟨h1, h2⟩ := h
  unfold pyUpperChar
  rw [if_pos ⟨h1, h2⟩]
  exact toNat_ofNat_valid _ (Or.inl (by omega))

theorem toNat_pyLowerChar_of_upper {c : Char} (h : isAsciiUpper c) :
    (pyLowerChar c).toNat = c.toNat + 32 := by
  obtain ⟨h1, h2⟩ := h
  unfold pyLowerChar
  rw [if_pos ⟨h1, h2⟩]
  exact toNat_ofNat_valid _ (Or.inl (by omega))

theorem pyLowerChar_of_lower {c : Char} (h : isAsciiLower c) : pyLowerChar c = c := by
  obtain ⟨h1, h2⟩ := h
  unfold pyLowerChar
  rw [if_neg (by omega)]

theorem ne_pyUpperChar_of_lower {c : Char} (h : isAsciiLower c) : c ≠ pyUpperChar c := by
  intro he
  have h3 := toNat_pyUpperChar_of_lower h
  obtain ⟨h1, h2⟩ := h
  rw [← he] at h3
  omega

theorem lower_pyLowerChar_of_upper {c : Char} (h : isAsciiUpper c) :
    isAsciiLower (pyLowerChar c) := by
  have h3 := toNat_pyLowerChar_of_upper h
  obtain ⟨h1, h2⟩ := h
  exact ⟨by omega, by omega⟩

theorem pyUpperChar_pyLowerChar_of_upper {c : Char} (h : isAsciiUpper c) :
    pyUpperChar (pyLowerChar c) = c := by
  apply char_eq_of_toNat_eq
  have h1 := toNat_pyLowerChar_of_upper h
  have h3 := toNat_pyUpperChar_of_lower (lower_pyLowerChar_of_upper h)
  obtain ⟨h4, h5⟩ := h
  omega

theorem lower_ne_hyphen {c : Char} (h : isAsciiLower c) : c ≠ '-' := by
  intro he
  have h3 : c.toNat = 45 := by rw [he]; rfl
  obtain ⟨h1, h2⟩ := h
  omega

theorem pyLowerChar_ne_hyphen_of_upper {c : Char} (h : isAsciiUpper c) :
    pyLowerChar c ≠ '-' :=
  lower_ne_hyphen (lower_pyLowerChar_of_upper h)

/-! Claims C5 and C4: the predicate name normalizer. -/

theorem cpnGo_pos (cs : List Char) : ∀ i, cpnGo (i + 1) cs
    = (cs.map fun d => if d = pyUpperChar d then ['-', pyLowerChar d] else [d]).flatten := by
  induction cs with
  | nil => intro i; rfl
  | cons c cs ih =>
    intro i
    show (if c = pyUpperChar c then (if 0 < i + 1 then ['-'] else []) ++ [pyLowerChar c] else [c])
        ++ cpnGo (i + 2) cs = _
    rw [if_pos (Nat.succ_pos i), ih (i + 1)]
    by_cases hc : c = pyUpperChar c
    · rw [if_pos hc, List.map_cons, List.flatten_cons, if_pos hc]
      try rfl
    · rw [if_neg hc, List.map_cons, List.flatten_cons, if_neg hc]
      try rfl

/-- Claim C5 (amended): the first character is lowercased when it equals
its own uppercase form and otherwise passes through, and every LATER
character that equals its own uppercase form (uppercase ASCII letters, but
also digits, hyphens and other characters without case) is replaced by a
hyphen followed by its lowercase form, while the remaining characters
(lowercase letters) pass through unchanged; in particular
locatedAt becomes located-at, EquipmentFamily becomes equipment-family,
and a1 becomes a-1. -/
theorem claim_C5 :
    (∀ c cs, (convert_predicate_name ⟨c :: cs⟩).data
      = (if c = pyUpperChar c then [pyLowerChar c] else [c])
        ++ (cs.map fun d => if d = pyUpperChar d then ['-', pyLowerChar d] else [d]).flatten)
    ∧ convert_predicate_name "" = ""
    ∧ convert_predicate_name "locatedAt" = "located-at"
    ∧ convert_predicate_name "EquipmentFamily" = "equipment-family"
    ∧ convert_predicate_name "a1" = "a-1" := by
  refine ⟨?_, by decide, by decide, by decide, by decide⟩
  intro c cs
  show (if c = pyUpperChar c then [pyLowerChar c] else [c]) ++ cpnGo 1 cs = _
  rw [cpnGo_pos cs 0]

/-- Claim C5, counterexample to the claim as stated: a digit does not pass
through unchanged, it is preceded by a hyphen, so the output for a1 is
a-1 and not a1. -/
theorem claim_C5_counterexample :
    convert_predicate_name "a1" ≠ "a1" ∧ convert_predicate_name "a1" = "a-1" := by
  decide

theorem upnGo_cpnGo (cs : List Char) (h : ∀ c ∈ cs, isAsciiLetter c) :
    ∀ i, upnGo false (cpnGo (i + 1) cs) = cs := by
  induction cs with
  | nil => intro i; rfl
  | cons c cs ih =>
    intro i
    have hc : isAsciiLetter c := h c (List.mem_cons_self c cs)
    have htail : ∀ c ∈ cs, isAsciiLetter c := fun d hd => h d (List.mem_cons_of_mem c hd)
    show upnGo false
        ((if c = pyUpperChar c then (if 0 < i + 1 then ['-'] else []) ++ [pyLowerChar c] else [c])
          ++ cpnGo (i + 2) cs) = c :: cs
    rw [if_pos (Nat.succ_pos i)]
    rcases hc with hu | hl
    · rw [if_pos (pyUpperChar_of_upper hu).symm]
      show upnGo true (pyLowerChar c :: cpnGo (i + 2) cs) = c :: cs
      show (if pyLowerChar c = '-' then upnGo true (cpnGo (i + 2) cs)
            else pyUpperChar (pyLowerChar c) :: upnGo false (cpnGo (i + 2) cs)) = c :: cs
      rw [if_neg (pyLowerChar_ne_hyphen_of_upper hu), pyUpperChar_pyLowerChar_of_upper hu]
      exact congrArg (c :: ·) (ih htail (i + 1))
    · rw [if_neg (ne_pyUpperChar_of_lower hl)]
      show (if c = '-' then upnGo true (cpnGo (i + 2) cs)
            else c :: upnGo false (cpnGo (i + 2) cs)) = c :: cs
      rw [if_neg (lower_ne_hyphen hl)]
      exact congrArg (c :: ·) (ih htail (i + 1))

/-- Claim C4 (amended): the round-trip law
toCompact (toHyphenated s) = s holds for every string of ASCII letters
that is empty or starts with a lowercase letter; a leading uppercase
letter is lowercased without a preceding hyphen, so it is not recovered
(see the counterexample). -/
theorem claim_C4 (s : String) (hall : ∀ c ∈ s.data, isAsciiLetter c)
    (hhead : ∀ c, s.data.head? = some c → isAsciiLower c) :
    unconvert_predicate_name (convert_predicate_name s) = s := by
  obtain ⟨l⟩ := s
  show (⟨upnGo false (cpnGo 0 l)⟩ : String) = ⟨l⟩
  apply congrArg String.mk
  match l, hall, hhead with
  | [], _, _ => rfl
  | c :: cs, hall, hhead =>
    have hl : isAsciiLower c := hhead c rfl
    have htail : ∀ d ∈ cs, isAsciiLetter d :=
      fun d hd => hall d (List.mem_cons_of_mem c hd)
    show upnGo false
        ((if c = pyUpperChar c then (if 0 < 0 then ['-'] else []) ++ [pyLowerChar c] else [c])
          ++ cpnGo 1 cs) = c :: cs
    rw [if_neg (ne_pyUpperChar_of_lower hl)]
    show (if c = '-' then upnGo true (cpnGo 1 cs)
          else c :: upnGo false (cpnGo 1 cs)) = c :: cs
    rw [if_neg (lower_ne_hyphen hl)]
    exact congrArg (c :: ·) (upnGo_cpnGo cs htail 0)

/-- Claim C4, counterexample to the claim as stated: the single-letter
string A consists of ASCII letters only, yet
toCompact (toHyphenated A) = a, not A, because a leading uppercase letter
is lowercased without a hyphen marker. -/
theorem claim_C4_counterexample :
    (∀ c ∈ ("A" : String).data, isAsciiLetter c)
    ∧ unconvert_predicate_name (convert_predicate_name "A") ≠ "A"
    ∧ unconvert_predicate_name (convert_predicate_name "A") = "a" := by
  refine ⟨by decide, by decide, by decide⟩

/-- Witness for claim C4 at the concrete input locatedAt. -/
theorem claim_C4_witness :
    (∀ c ∈ ("locatedAt" : String).data, isAsciiLetter c)
    ∧ unconvert_predicate_name (convert_predicate_name "locatedAt") = "locatedAt" :=
  ⟨by decide, claim_C4 "locatedAt" (by decide) (by decide)⟩

/-! Claim C3: the identifier codec. -/

/-- Claim-side definition, following the claim's words: the local id is
the final path segment of the raw id (its longest slash-free suffix). -/
def claim_localId (id : String) : List Char := afterLastSlash id.data

/-- Claim-side definition, following the claim's words: the container path
is everything before the final path segment and its separating slash
(empty when the raw id contains no slash). -/
def claim_containerPath (id : String) : List Char := (upToLastSlash id.data).dropLast

/-- Claim-side definition, following the claim's words: the prefix is the
last slash-delimited component of the container path. -/
def claim_pfx (id : String) : List Char :=
  (splitChars '/' (claim_containerPath id)).getLastD []

/-- The output format claim C3 asserts for deriveNodeIdentity, assembled
from the claim-side components. -/
def claim_format (id : String) : String :=
  "janes-" ++ (⟨claim_pfx id⟩ : String) ++ "-" ++ pyLowerStr ⟨claim_localId id⟩
    ++ "-" ++ ⟨(sha1hexChars id).take 8⟩

/-- Amended prefix: as the claim says, but trailing slashes are first
removed from the container path — unless it is empty or consists solely
of slashes — matching the head normalization of os.path.split. -/
def amended_pfx (id : String) : List Char :=
  (splitChars '/'
    (if claim_containerPath id ≠ [] ∧ (claim_containerPath id).any (· != '/')
     then rstripSlashes (claim_containerPath id)
     else claim_containerPath id)).getLastD []

theorem splitChars_ne_nil (sep : Char) (l : List Char) : splitChars sep l ≠ [] := by
  cases l with
  | nil => simp [splitChars]
  | cons c cs =>
    show (match splitChars sep cs with
          | [] => [[]]
          | g :: gs => if c = sep then [] :: g :: gs else (c :: g) :: gs) ≠ []
    rcases hs : splitChars sep cs with _ | ⟨g, gs⟩
    · simp
    · by_cases hc : c = sep <;> simp [hc]

theorem getLastD_splitChars_allSlash (l : List Char) (h : ∀ x ∈ l, x = '/') :
    (splitChars '/' l).getLastD [] = [] := by
  induction l with
  | nil => rfl
  | cons c cs ih =>
    have hc : c = '/' := h c (List.mem_cons_self c cs)
    have htail : ∀ x ∈ cs, x = '/' := fun x hx => h x (List.mem_cons_of_mem c hx)
    show (match splitChars '/' cs with
          | [] => [[]]
          | g :: gs => if c = '/' then [] :: g :: gs else (c :: g) :: gs).getLastD [] = []
    rcases hs : splitChars '/' cs with _ | ⟨g, gs⟩
    · exact absurd hs (splitChars_ne_nil '/' cs)
    · show ((if c = '/' then [] :: g :: gs else (c :: g) :: gs)).getLastD [] = []
      rw [if_pos hc, List.getLastD_cons]
      have h2 := ih htail
      rw [hs] at h2
      exact h2

theorem dropWhile_ne_slash (l : List Char) :
    l.dropWhile (· != '/') = [] ∨ ∃ t, l.dropWhile (· != '/') = '/' :: t := by
  induction l with
  | nil => exact Or.inl rfl
  | cons c cs ih =>
    by_cases hc : c = '/'
    · right
      refine ⟨cs, ?_⟩
      rw [List.dropWhile_cons]
      simp [hc]
    · rw [List.dropWhile_cons]
      simpa [hc] using ih

theorem rstripSlashes_concat_slash (d : List Char) :
    rstripSlashes (d ++ ['/']) = rstripSlashes d := by
  unfold rstripSlashes
  rw [List.reverse_append]
  simp [List.dropWhile_cons]

theorem prefix_list_lemma (cs : List Char) :
    (splitChars '/'
      (if upToLastSlash cs ≠ [] ∧ (upToLastSlash cs).any (· != '/')
       then rstripSlashes (upToLastSlash cs) else upToLastSlash cs)).getLastD []
    = (splitChars '/'
        (if (upToLastSlash cs).dropLast ≠ [] ∧ ((upToLastSlash cs).dropLast).any (· != '/')
         then rstripSlashes ((upToLastSlash cs).dropLast)
         else (upToLastSlash cs).dropLast)).getLastD [] := by
  rcases dropWhile_ne_slash cs.reverse with hr | ⟨t, hr⟩
  · have hup : upToLastSlash cs = [] := by
      unfold upToLastSlash
      rw [hr]
      rfl
    rw [hup]
    simp
  · have hup : upToLastSlash cs = t.reverse ++ ['/'] := by
      unfold upToLastSlash
      rw [hr, List.reverse_cons]
    rw [hup, List.dropLast_concat]
    have hne : t.reverse ++ ['/'] ≠ [] := by simp
    have hany : (t.reverse ++ ['/']).any (· != '/') = t.reverse.any (· != '/') := by
      simp
    by_cases hb : t.reverse.any (· != '/') = true
    · have hne2 : t.reverse ≠ [] := by
        intro he
        rw [he] at hb
        simp at hb
      rw [if_pos ⟨hne, by rw [hany]; exact hb⟩, if_pos ⟨hne2, hb⟩]
      rw [rstripSlashes_concat_slash]
    · have hb' : ¬((t.reverse ++ ['/']).any (· != '/') = true) := by
        rw [hany]; exact hb
      rw [if_neg (fun hc => hb' hc.2), if_neg (fun hc => hb hc.2)]
      have hall : ∀ x ∈ t.reverse, x = '/' := by
        intro x hx
        by_contra hne3
        apply hb
        rw [List.any_eq_true]
        refine ⟨x, hx, ?_⟩
        simpa using hne3
      have hall2 : ∀ x ∈ t.reverse ++ ['/'], x = '/' := by
        intro x hx
        rcases List.mem_append.mp hx with h1 | h1
        · exact hall x h1
        · simpa using h1
      rw [getLastD_splitChars_allSlash _ hall2, getLastD_splitChars_allSlash _ hall]

/-- The prefix the source computes (through os.path.split and
split('/')[-1]) equals the amended claim prefix, for every input. -/
theorem code_prefix_eq_amended (id : String) :
    (splitChars '/' ((os_path_split id).1).data).getLastD [] = amended_pfx id :=
  prefix_list_lemma id.data

/-- Claim C3, counterexample to the claim as stated: for the non-empty
raw id https://x the container path is https:/ whose last slash-delimited
component is empty, so the claimed format is janes--x-98383e66, while the
code strips the trailing slash of the container path (os.path.split) and
produces janes-https:-x-98383e66. -/
theorem claim_C3_counterexample :
    ("https://x" : String) ≠ ""
    ∧ convert_id "https://x" ≠ claim_format "https://x"
    ∧ convert_id "https://x" = "janes-https:-x-98383e66"
    ∧ claim_format "https://x" = "janes--x-98383e66" := by
  refine ⟨by decide, by decide, by decide, by decide⟩

/-- Claim C3 (amended): deriveNodeIdentity is a pure deterministic
function of the raw id; for every non-empty raw id it returns exactly
janes-(prefix)-(lowercased local id)-(first eight hex characters of the
SHA-1 digest of the full raw id), where the local id is the final path
segment and the prefix is the last slash-delimited component of the
container path after removal of its trailing slashes (no removal when the
container path is empty or consists solely of slashes; the prefix is
empty when the raw id contains no slash). -/
theorem claim_C3 :
    (∀ id : String, id ≠ "" →
      convert_id id
        = "janes-" ++ (⟨amended_pfx id⟩ : String) ++ "-" ++ pyLowerStr ⟨claim_localId id⟩
          ++ "-" ++ ⟨(sha1hexChars id).take 8⟩)
    ∧ (∀ a b : String, a = b → convert_id a = convert_id b) := by
  constructor
  · intro id _
    have h2 := code_prefix_eq_amended id
    show "janes-" ++ (⟨(splitChars '/' ((os_path_split id).1).data).getLastD []⟩ : String)
        ++ "-" ++ pyLowerStr (os_path_split id).2 ++ "-" ++ ⟨(sha1hexChars id).take 8⟩ = _
    rw [h2]
    rfl
  · intro a b hab
    rw [hab]

/-- Witness for claim C3 at the concrete input a/b. -/
theorem claim_C3_witness :
    (("a/b" : String) ≠ ""
      ∧ convert_id "a/b"
        = "janes-" ++ (⟨amended_pfx "a/b"⟩ : String) ++ "-"
          ++ pyLowerStr ⟨claim_localId "a/b"⟩ ++ "-" ++ ⟨(sha1hexChars "a/b").take 8⟩)
    ∧ convert_id "a/b" = convert_id "a/b" :=
  ⟨⟨by decide, claim_C3.1 "a/b" (by decide)⟩, claim_C3.2 "a/b" "a/b" rfl⟩

/-! Claim C1: inline versus node distinction of flattenRecord. -/

theorem traverse_no_id (fields : List (String × JValue)) (st : St) (fuel : Nat)
    (h : dlookup fields "id" = none) :
    traverse (fuel + 1) (.obj fields) st = .ok (some (.obj fields), st) := by
  show (do
      let noId ← idNotIn (.obj fields)
      if noId then
        .ok (some (.obj fields), st)
      else do
        let xidv ← pyGetItem (.obj fields) "id"
        let name ← convert_id_py xidv
        match JValue.obj fields with
        | .obj fields =>
          let xid := (match xidv with | .str s => s | _ => "")
          let (ty, janesType) := compute_type_info fields
          let li ← extract_location_info fields
          let object_class := type_class_get ty
          let (props, st₁) ← parse_props fuel name fields [] st
          let st₂ := { st₁ with objects := oinsert st₁.objects name (build_node fields name xid janesType object_class props li) }
          let st₃ ← ref_edge_block fuel "location-country" li.location_country fields st₂
          let st₄ ← ref_edge_block fuel "geoprecision" li.geoprecision fields st₃
          .ok (none, st₄)
        | _ => .error .typeError
      : Except PyErr (Option JValue × St)) = .ok (some (.obj fields), st)
  rw [show idNotIn (.obj fields) = .ok true from by simp [idNotIn, h]]
  rfl

theorem pybind_ok {α β : Type} (a : α) (f : α → Except PyErr β) :
    (do let x ← Except.ok a; f x) = f a := rfl

theorem pybind_err {α β : Type} (e : PyErr) (f : α → Except PyErr β) :
    (do let x ← (Except.error e : Except PyErr α); f x) = Except.error e := rfl

theorem pybind_eq_ok {α β : Type} {m : Except PyErr α} {k : α → Except PyErr β} {b : β}
    (h : (do let x ← m; k x) = .ok b) : ∃ a, m = .ok a ∧ k a = .ok b := by
  cases m with
  | ok a => exact ⟨a, rfl, h⟩
  | error e => exact Except.noConfusion h

/-- Characterization of `traverse` on a record that has an `id`: the body
runs the id conversion, the type computation, the location extraction, the
property parsing, the node store and the two reference-edge blocks in
order, and returns the null sentinel `none`. -/
theorem traverse_id_some (fields : List (String × JValue)) (st : St) (fuel : Nat) (v : JValue)
    (h : dlookup fields "id" = some v) :
    traverse (fuel + 1) (.obj fields) st
    = (do
        let name ← convert_id_py v
        let (ty, janesType) := compute_type_info fields
        let li ← extract_location_info fields
        let (props, st₁) ← parse_props fuel name fields [] st
        let xid := (fun w : JValue => match w with | .str s => s | _ => "") v
        let st₂ := { st₁ with objects := oinsert st₁.objects name (build_node fields name xid janesType (type_class_get ty) props li) }
        let st₃ ← ref_edge_block fuel "location-country" li.location_country fields st₂
        let st₄ ← ref_edge_block fuel "geoprecision" li.geoprecision fields st₃
        .ok (none, st₄)) := by
  show (do
      let noId ← idNotIn (.obj fields)
      if noId then
        .ok (some (.obj fields), st)
      else do
        let xidv ← pyGetItem (.obj fields) "id"
        let name ← convert_id_py xidv
        match JValue.obj fields with
        | .obj fields =>
          let xid := (match xidv with | .str s => s | _ => "")
          let (ty, janesType) := compute_type_info fields
          let li ← extract_location_info fields
          let object_class := type_class_get ty
          let (props, st₁) ← parse_props fuel name fields [] st
          let st₂ := { st₁ with objects := oinsert st₁.objects name (build_node fields name xid janesType object_class props li) }
          let st₃ ← ref_edge_block fuel "location-country" li.location_country fields st₂
          let st₄ ← ref_edge_block fuel "geoprecision" li.geoprecision fields st₃
          .ok (none, st₄)
        | _ => .error .typeError
      : Except PyErr (Option JValue × St)) = _
  rw [show idNotIn (.obj fields) = .ok false from by simp [idNotIn, h],
      show pyGetItem (.obj fields) "id" = .ok v from by simp [pyGetItem, h]]
  rfl

/-- Claim C1: flattenRecord returns the null sentinel if and only if the
record has an id attribute; when there is no id, the record itself is
returned and the accumulators are untouched. -/
theorem claim_C1 (fields : List (String × JValue)) (st : St) :
    (dlookup fields "id" = none →
      ∀ fuel : Nat, traverse (fuel + 1) (.obj fields) st = .ok (some (.obj fields), st))
    ∧ (∀ fuel res st', traverse fuel (.obj fields) st = .ok (res, st') →
        (res = none ↔ (dlookup fields "id").isSome)) := by
  constructor
  · intro h fuel
    exact traverse_no_id fields st fuel h
  · intro fuel res st' h
    cases fuel with
    | zero => exact Except.noConfusion h
    | succ f =>
      rcases hid : dlookup fields "id" with _ | v
      · rw [traverse_no_id fields st f hid] at h
        have h2 : some (JValue.obj fields) = res := congrArg Prod.fst (Except.ok.inj h)
        rw [← h2]
        simp
      · rw [traverse_id_some fields st f v hid] at h
        simp only [hid, Option.isSome_some, iff_true]
        obtain ⟨name, _, h⟩ := pybind_eq_ok h
        rcases hct : compute_type_info fields with ⟨ty, jt⟩
        rw [hct] at h
        obtain ⟨li, _, h⟩ := pybind_eq_ok h
        obtain ⟨⟨props, st₁⟩, _, h⟩ := pybind_eq_ok h
        obtain ⟨st₃, _, h⟩ := pybind_eq_ok h
        obtain ⟨st₄, _, h⟩ := pybind_eq_ok h
        exact (congrArg Prod.fst (Except.ok.inj h)).symm

/-- Witness for claim C1 at a concrete record without an id and a
concrete record with an id. -/
theorem claim_C1_witness :
    traverse 1 (.obj [("a", .str "b")]) ⟨[], []⟩ = .ok (some (.obj [("a", .str "b")]), ⟨[], []⟩)
    ∧ ((none : Option JValue) = none ↔ (dlookup [("id", JValue.str "x/y")] "id").isSome) :=
  ⟨(claim_C1 [("a", .str "b")] ⟨[], []⟩).1 rfl 0,
   (claim_C1 [("id", JValue.str "x/y")] ⟨[], []⟩).2 5 none _ rfl⟩

/-! Claim C6: the geospatial extractor. -/

/-- Claim C6: with no location sub-structure the extractor returns the
empty result; with a location sub-structure the result carries a geometry
exactly when both the latitude and the longitude values are present (not
None), and that geometry is POINT(lon lat) with the longitude first; in
particular lat 10.5 and long 20.5 give exactly POINT(20.5 10.5). -/
theorem claim_C6 (fields : List (String × JValue)) :
    (dlookup fields "locatedAt" = none → extract_location_info fields = .ok ⟨none, none, none⟩)
    ∧ (∀ laf, dlookup fields "locatedAt" = some (.obj laf) →
        ∃ li, extract_location_info fields = .ok li
          ∧ (li.geometry.isSome ↔ ((!(dget laf "lat").isNull) ∧ (!(dget laf "long").isNull)))
          ∧ ((!(dget laf "lat").isNull) → (!(dget laf "long").isNull) →
              li.geometry = some ("POINT(" ++ pyStr (dget laf "long") ++ " "
                ++ pyStr (dget laf "lat") ++ ")")))
    ∧ extract_location_info [("locatedAt", .obj [("lat", .num "10.5"), ("long", .num "20.5")])]
        = .ok ⟨some "POINT(20.5 10.5)", none, none⟩ := by
  refine ⟨?_, ?_, rfl⟩
  · intro h
    unfold extract_location_info
    rw [h]
  · intro laf hla
    unfold extract_location_info
    rw [hla]
    refine ⟨_, rfl, ?_, ?_⟩
    · by_cases hc : (!(dget laf "lat").isNull) ∧ (!(dget laf "long").isNull)
      · rw [if_pos hc]
        exact iff_of_true (by simp) hc
      · rw [if_neg hc]
        exact iff_of_false (by simp) hc
    · intro h1 h2
      rw [if_pos ⟨h1, h2⟩]

/-- Witness for claim C6 at a record with no location and at the worked
example. -/
theorem claim_C6_witness :
    extract_location_info [("a", JValue.str "b")] = .ok ⟨none, none, none⟩ :=
  (claim_C6 [("a", JValue.str "b")]).1 rfl

/-! Claim C7: missing type defaults. -/

/-- Claim C7: a record with an id but no type attribute is flattened to a
node whose type label is the sentinel star and whose structural role is
Entity; and every type URI outside the static table is classified as
Entity. -/
theorem claim_C7 (fields : List (String × JValue)) (st : St) (fuel : Nat) (xid : String)
    (li : LocInfo) (props : List (String × JValue)) (st₁ : St)
    (hid : dlookup fields "id" = some (.str xid))
    (hty : dlookup fields "type" = none)
    (hex : extract_location_info fields = .ok li)
    (hlc : li.location_country = none)
    (hgp : li.geoprecision = none)
    (hpp : parse_props (fuel + 1) (convert_id xid) fields [] st = .ok (props, st₁)) :
    (∃ node, traverse (fuel + 2) (.obj fields) st
        = .ok (none, { st₁ with objects := oinsert st₁.objects (convert_id xid) node })
      ∧ node.type_ = "*" ∧ node.object_class = "Entity")
    ∧ (∀ uri, tlookup type_class_map uri = none → type_class_get uri = "Entity") := by
  constructor
  · have hct : compute_type_info fields = ("", "*") := by
      unfold compute_type_info
      rw [hty]
    refine ⟨build_node fields (convert_id xid) xid "*" (type_class_get "") props li, ?_, rfl, rfl⟩
    rw [traverse_id_some fields st (fuel + 1) (.str xid) hid,
        show convert_id_py (.str xid) = .ok (convert_id xid) from rfl, pybind_ok, hct, hex, hpp]
    show (do
        let st₃ ← ref_edge_block (fuel + 1) "location-country" li.location_country fields { objects := oinsert st₁.objects (convert_id xid) (build_node fields (convert_id xid) xid "*" (type_class_get "") props li), connections := st₁.connections }
        let st₄ ← ref_edge_block (fuel + 1) "geoprecision" li.geoprecision fields st₃
        (.ok (none, st₄) : Except PyErr (Option JValue × St)))
      = .ok (none, { objects := oinsert st₁.objects (convert_id xid) (build_node fields (convert_id xid) xid "*" (type_class_get "") props li), connections := st₁.connections })
    rw [hlc, hgp]
    rfl
  · intro uri h
    unfold type_class_get
    rw [h]
    rfl

/-- Witness for claim C7 at a concrete record with an id and no type. -/
theorem claim_C7_witness :
    (∃ node, traverse 3 (.obj [("id", JValue.str "a/b")]) ⟨[], []⟩
        = .ok (none, { St.mk [] [] with objects := oinsert (St.mk [] []).objects (convert_id "a/b") node })
      ∧ node.type_ = "*" ∧ node.object_class = "Entity")
    ∧ (∀ uri, tlookup type_class_map uri = none → type_class_get uri = "Entity") :=
  claim_C7 [("id", JValue.str "a/b")] ⟨[], []⟩ 1 "a/b" ⟨none, none, none⟩ [] ⟨[], []⟩
    rfl rfl rfl rfl rfl rfl

/-! Claim C2: the worked flattening example. -/

/-- Claim C2: flattening the worked equipment record with empty
accumulators produces exactly two flat nodes, keyed by the identities
derived from the two raw ids (the organization first, being flattened
during property parsing, then the equipment), and exactly one edge from
the equipment identity to the organization identity labelled part-of. -/
theorem claim_C2 :
    (traverse 100 c2Record ⟨[], []⟩).map
      (fun r => (r.1, r.2.objects.map Prod.fst, r.2.connections))
      = .ok (none,
             [convert_id "https://x/organization/Organization/9",
              convert_id "https://x/equipment/Equipment/123"],
             [(convert_id "https://x/equipment/Equipment/123", "part-of",
               convert_id "https://x/organization/Organization/9")]) := by
  rfl

/-! Claim C10: the unguarded id dereference of the reference-edge blocks. -/

theorem ref_edge_block_some (f : Nat) (label : String) (lc : JValue)
    (fields : List (String × JValue)) (st : St) :
    ref_edge_block (f + 1) label (some lc) fields st
    = (do
        let (_, st') ← traverse f lc st
        let xidv ← pyGetItem (.obj fields) "id"
        let name ← convert_id_py xidv
        let idv ← pyGetItem lc "id"
        let obj_name ← convert_id_py idv
        .ok { st' with connections := st'.connections ++ [(name, label, obj_name)] }) := rfl

/-- The reference-edge block faults with KeyError when the sub-record
carries no id (helper for claim C10). -/
theorem ref_edge_block_missing_id (fuel : Nat) (label : String)
    (fields lcf : List (String × JValue)) (st : St) (xid : String)
    (hid : dlookup fields "id" = some (.str xid))
    (hlc : dlookup lcf "id" = none) :
    ref_edge_block (fuel + 2) label (some (.obj lcf)) fields st = .error .keyError := by
  rw [ref_edge_block_some, traverse_no_id lcf st fuel hlc,
      show pyGetItem (.obj fields) "id" = .ok (.str xid) from by simp [pyGetItem, hid],
      show pyGetItem (.obj lcf) "id" = .error .keyError from by simp [pyGetItem, hlc]]
  rfl

/-- Claim C10: the location-country and geoprecision edge blocks
dereference the sub-record's id without a guard.  When the sub-record
carries a string id the block is fault-free (given that the recursive
flattening of the sub-record returns), and it appends the edge after the
recursive flattening; when the sub-record lacks an id the lookup raises
KeyError and the whole flattening aborts with that error. -/
theorem claim_C10 :
    (∀ fuel label fields lcf st xid,
       dlookup fields "id" = some (.str xid) →
       dlookup lcf "id" = none →
       ref_edge_block (fuel + 2) label (some (.obj lcf)) fields st = .error .keyError)
    ∧ (∀ fuel label fields lcf st xid lcid r st',
       dlookup fields "id" = some (.str xid) →
       dlookup lcf "id" = some (.str lcid) →
       traverse (fuel + 1) (.obj lcf) st = .ok (r, st') →
       ref_edge_block (fuel + 2) label (some (.obj lcf)) fields st
         = .ok { st' with connections := st'.connections
             ++ [(convert_id xid, label, convert_id lcid)] })
    ∧ (∀ fuel fields st xid li lcf props st₁,
       dlookup fields "id" = some (.str xid) →
       extract_location_info fields = .ok li →
       li.location_country = some (.obj lcf) →
       dlookup lcf "id" = none →
       parse_props (fuel + 2) (convert_id xid) fields [] st = .ok (props, st₁) →
       traverse (fuel + 3) (.obj fields) st = .error .keyError) := by
  refine ⟨?_, ?_, ?_⟩
  · intro fuel label fields lcf st xid hid hlc
    exact ref_edge_block_missing_id fuel label fields lcf st xid hid hlc
  · intro fuel label fields lcf st xid lcid r st' hid hlc htr
    rw [ref_edge_block_some, htr,
        show pyGetItem (.obj fields) "id" = .ok (.str xid) from by simp [pyGetItem, hid],
        show pyGetItem (.obj lcf) "id" = .ok (.str lcid) from by simp [pyGetItem, hlc]]
    rfl
  · intro fuel fields st xid li lcf props st₁ hid hex hlc hlcid hpp
    rcases hct : compute_type_info fields with ⟨ty, jt⟩
    rw [traverse_id_some fields st (fuel + 2) (.str xid) hid,
        show convert_id_py (.str xid) = .ok (convert_id xid) from rfl, pybind_ok, hct, hex, hpp]
    show (do
        let st₃ ← ref_edge_block (fuel + 2) "location-country" li.location_country fields { objects := oinsert st₁.objects (convert_id xid) (build_node fields (convert_id xid) xid jt (type_class_get ty) props li), connections := st₁.connections }
        let st₄ ← ref_edge_block (fuel + 2) "geoprecision" li.geoprecision fields st₃
        (.ok (none, st₄) : Except PyErr (Option JValue × St)))
      = .error .keyError
    rw [hlc, ref_edge_block_missing_id fuel "location-country" fields lcf _ xid hid hlcid]
    rfl

/-- Witness for claim C10: a record whose locationCountry sub-record has
no id makes the whole flattening abort with KeyError. -/
theorem claim_C10_witness :
    traverse 4 (.obj [("id", JValue.str "a/b"),
      ("locatedAt", .obj [("locationCountry", .obj [("label", JValue.str "x")])])]) ⟨[], []⟩
      = .error .keyError :=
  claim_C10.2.2 1 [("id", JValue.str "a/b"),
      ("locatedAt", .obj [("locationCountry", .obj [("label", JValue.str "x")])])]
    ⟨[], []⟩ "a/b" ⟨none, some (.obj [("label", JValue.str "x")]), none⟩
    [("label", JValue.str "x")]
    [("locatedAt", .obj [("locationCountry", .obj [("label", JValue.str "x")])])] ⟨[], []⟩
    rfl rfl rfl rfl rfl

/-! Claim C8: self-loop suppression and the unreachable persistence. -/

/-- A record producing one self-loop edge and one ordinary edge. -/
def c8Record : JValue :=
  .obj [("id", .str "a/b"),
        ("partOf", .arr [.obj [("id", .str "a/b")], .obj [("id", .str "c/d")]])]

/-- Claim C8 evaluated on the code: the self-loop edge survives in the
connection list, and the dead filtering code of lines 313 to 320 would
drop exactly it, but the modelled main hands the persistence collaborator
no node or edge call at all, because exit() on line 305 ends the program
right after predicate registration. -/
theorem claim_C8_code_bug :
    (main_calls 100 [[c8Record]]).map (fun r => (r.1.connections, r.2))
      = .ok ([(convert_id "a/b", "part-of", convert_id "a/b"),
              (convert_id "a/b", "part-of", convert_id "c/d")],
             [ExtCall.registerPredicates ["part-of"]])
    ∧ conn_objects [(convert_id "a/b", "part-of", convert_id "a/b"),
                    (convert_id "a/b", "part-of", convert_id "c/d")]
        = [(convert_id "a/b", "part-of", convert_id "c/d")] := by
  exact ⟨rfl, rfl⟩

/-! Claim C9: unique predicate registration. -/

/-- Claim C9: whenever the modelled main succeeds, the only external call
it makes is one registration whose payload is the duplicate-free list of
predicate labels of the edge list (so registration precedes any node or
edge persistence); the registered set is invariant under permutation of
the edge list; and the worked example registers exactly the set of
located-at and part-of. -/
theorem claim_C9 :
    (∀ fuel colls st calls, main_calls fuel colls = .ok (st, calls) →
      calls = [ExtCall.registerPredicates (unique_predicates st.connections)]
      ∧ (unique_predicates st.connections).Nodup
      ∧ (∀ p, p ∈ unique_predicates st.connections ↔ p ∈ st.connections.map (fun c => c.2.1)))
    ∧ (∀ l₁ l₂ : List Conn, l₁.Perm l₂ →
        (unique_predicates l₁).toFinset = (unique_predicates l₂).toFinset)
    ∧ (unique_predicates [("a", "located-at", "b"), ("c", "located-at", "d"),
        ("e", "part-of", "f")]).toFinset = {"located-at", "part-of"} := by
  refine ⟨?_, ?_, by decide⟩
  · intro fuel colls st calls h
    obtain ⟨st0, hta, h2⟩ := pybind_eq_ok h
    obtain ⟨h3, h4⟩ := Prod.mk.injEq _ _ _ _ ▸ Except.ok.inj h2
    subst h3
    subst h4
    exact ⟨rfl, List.nodup_dedup _, fun p => List.mem_dedup⟩
  · intro l₁ l₂ hp
    have hm := hp.map (fun c => c.2.1)
    apply Finset.ext
    intro a
    simp only [List.mem_toFinset, unique_predicates, List.mem_dedup]
    exact hm.mem_iff

/-- Witness for claim C9: the modelled main on one empty record registers
the empty predicate set and makes no other call. -/
theorem claim_C9_witness :
    ([ExtCall.registerPredicates []]
        = [ExtCall.registerPredicates (unique_predicates (St.mk [] []).connections)]
      ∧ (unique_predicates (St.mk [] []).connections).Nodup
      ∧ (∀ p, p ∈ unique_predicates (St.mk [] []).connections
          ↔ p ∈ (St.mk [] []).connections.map (fun c => c.2.1)))
    ∧ (unique_predicates [(("a" : String), ("p" : String), ("b" : String))]).toFinset
        = (unique_predicates [(("a" : String), ("p" : String), ("b" : String))]).toFinset :=
  ⟨claim_C9.1 1 [[JValue.obj []]] ⟨[], []⟩ [ExtCall.registerPredicates []] rfl,
   claim_C9.2.1 [("a", "p", "b")] [("a", "p", "b")] (List.Perm.refl _)⟩

end SEER


